import Mathlib

/-!
Shallow embedding of the GoshawkDB paxos coordination core: the
`ProposerManager` (proposermanager.go) and the transaction state machine
(transaction.go).  Transaction ids, variable ids, RM ids, boot counts and
vector-clock payloads are modelled as `Nat`; the two manager maps are
association lists whose key-uniqueness is an invariant proved below.
Observable side effects (starting paxos instances, starting proposers,
delivering outcomes, sending one-shot TLC messages, dispatching work to
variables) are recorded as explicit event lists.  Fatal panics are
modelled with `Except String`; the nil-pointer dereference reachable in
`TwoBTxnVotesReceived` / `TxnReceived` when `AllocForRMId` returns nil is
modelled by an `Option` result being `none`.
-/

namespace GoshawkPaxos

/-- Per-RM binding inside a transaction: RM id, active boot count
(0 = passive learner), indices into the txn's action list. -/
structure Allocation where
  rmId : Nat
  active : Nat
  actionIndices : List Nat
deriving DecidableEq

/-- An action against one variable; only the variable id is relevant to
the proposer-manager code embedded here. -/
structure Action where
  varId : Nat
deriving DecidableEq

/-- The transaction body (capnp `msgs.Txn` plus its id). -/
structure TxnMsg where
  id : Nat
  topologyVersion : Nat
  fInc : Nat
  allocations : List Allocation
  actions : List Action
deriving DecidableEq

/-- Topology snapshot: current version, optional next version, RMs removed. -/
structure Topology where
  version : Nat
  next : Option Nat
  rmsRemoved : List Nat
deriving DecidableEq

inductive Vote where
  | commit
  | abortDeadlock
  | abortBadRead
deriving DecidableEq

/-- Per-variable ballot (vector clock and evidence omitted: the code paths
embedded here build deadlock-abort ballots with a nil clock). -/
structure Ballot where
  varId : Nat
  vote : Vote
deriving DecidableEq

/-- A 2B outcome: commit with a vector-clock payload, or abort. -/
inductive Outcome where
  | commit (clock : Nat)
  | abort
deriving DecidableEq

inductive ProposerRole where
  | activeVoter
  | activeLearner
  | passiveLearner
deriving DecidableEq

/-- The manager-visible part of a Proposer (proposer.go is not part of the
embedded source; only the role chosen at construction is needed). -/
structure Proposer where
  role : ProposerRole
deriving DecidableEq

/-- The manager-visible part of a paxos Proposal: the arguments of
`NewProposal` plus the abort sub-instances later reported by
`FinishProposing`. -/
structure Proposal where
  txnId : Nat
  rmId : Nat
  fInc : Nat
  ballots : List Ballot
  acceptors : List Nat
  skipPhase1 : Bool
  abortInstances : List Nat
deriving DecidableEq

/-- Observable effects of the ProposerManager operations. -/
inductive PMEvent where
  | paxosCall (txnId rmId : Nat) (skipPhase1 : Bool) (fInc : Nat)
      (ballots : List Ballot) (acceptors : List Nat)
  | paxosStart (txnId rmId : Nat)
  | proposerStart (txnId : Nat) (role : ProposerRole)
  | deliverOutcome (txnId sender : Nat) (o : Outcome)
  | sendTLC (sender txnId : Nat)
  | deliverOneB (txnId rmId sender : Nat)
  | deliverTwoBFailures (txnId rmId sender : Nat)
  | deliverTGC (txnId sender : Nat)
  | proposerAbort (txnId : Nat)
  | finishProposing (txnId rmId : Nat)
  | addBallots (txnId rmId : Nat) (ballots : List Ballot)
deriving DecidableEq

/-- ProposerManager state: identity, boot count, stored topology and the
two maps (proposers by TxnId, proposals by TxnId paired with RM id -- the
Go code concatenates the two into an `instanceIdPrefix` key, which the
pair models injectively). -/
structure PM where
  rmId : Nat
  bootCount : Nat
  topology : Option Topology
  proposers : List (Nat × Proposer)
  proposals : List ((Nat × Nat) × Proposal)
deriving DecidableEq

/-- Association-list lookup (Go map read). -/
def alookup {κ α : Type} [DecidableEq κ] : List (κ × α) → κ → Option α
  | [], _ => none
  | (k, v) :: rest, k0 => if k = k0 then some v else alookup rest k0

/-- Association-list delete (Go `delete(m, k)`). -/
def adelete {κ α : Type} [DecidableEq κ] (l : List (κ × α)) (k : κ) : List (κ × α) :=
  l.filter (fun p => decide (p.1 ≠ k))

/-- `AllocForRMId`: first allocation carrying `rmId`, nil if absent. -/
def AllocForRMId (txn : TxnMsg) (rmId : Nat) : Option Allocation :=
  txn.allocations.find? (fun a => a.rmId == rmId)

/-- `GetAcceptorsFromTxn`: allocation RM ids in declaration order,
truncated to the first `2 * fInc - 1` entries (the Go loop stops at
`twoFInc` and slices to the actual count; `fInc >= 1` in any live txn,
since Go would panic allocating a negative-length slice). -/
def GetAcceptorsFromTxn (txn : TxnMsg) : List Nat :=
  let fInc := txn.fInc
  let twoFInc := fInc + fInc - 1
  (txn.allocations.take twoFInc).map (fun a => a.rmId)

/-- `MakeAbortBallots`: one AbortDeadlock ballot per action index of the
allocation, in allocation order, for the indexed action's variable id. -/
def MakeAbortBallots (txn : TxnMsg) (alloc : Allocation) : List Ballot :=
  alloc.actionIndices.map
    (fun i => { varId := (txn.actions.getD i { varId := 0 }).varId
                vote := Vote.abortDeadlock })

/-- `NewProposal` constructor arguments, as recorded at the manager. -/
def NewProposal (txnId rmId fInc : Nat) (ballots : List Ballot)
    (acceptors : List Nat) (skipPhase1 : Bool) : Proposal :=
  { txnId := txnId, rmId := rmId, fInc := fInc, ballots := ballots
    acceptors := acceptors, skipPhase1 := skipPhase1, abortInstances := [] }

/-- `ProposerManager.NewPaxosProposals`: dedup on the (txnId, rmId)
instance key; only when absent is a proposal constructed, inserted and
started. -/
def NewPaxosProposals (pm : PM) (txn : TxnMsg) (fInc : Nat)
    (ballots : List Ballot) (acceptors : List Nat) (rmId : Nat)
    (skipPhase1 : Bool) : PM × List PMEvent :=
  match alookup pm.proposals (txn.id, rmId) with
  | some _ => (pm, [PMEvent.paxosCall txn.id rmId skipPhase1 fInc ballots acceptors])
  | none =>
      ({ pm with proposals :=
          ((txn.id, rmId), NewProposal txn.id rmId fInc ballots acceptors skipPhase1)
            :: pm.proposals },
       [PMEvent.paxosCall txn.id rmId skipPhase1 fInc ballots acceptors,
        PMEvent.paxosStart txn.id rmId])

/-- Topology admission test of `TxnReceived`: when no next topology is
present the txn must carry the current version; when a next topology is
present it must carry the next version. -/
def txnTopoVersionOK (topo : Topology) (tv : Nat) : Bool :=
  match topo.next with
  | none => decide (topo.version = tv)
  | some nv => decide (nv = tv)

/-- The `accept` computation of `ProposerManager.TxnReceived`: nil
topology accepts; otherwise version check, then sender-removed check,
then this RM's allocation must exist with Active equal to BootCount. -/
def txnAccept (pm : PM) (sender : Nat) (txn : TxnMsg) : Bool :=
  match pm.topology with
  | none => true
  | some topo =>
      if txnTopoVersionOK topo txn.topologyVersion then
        if sender ∈ topo.rmsRemoved then false
        else
          match AllocForRMId txn pm.rmId with
          | some alloc => decide (alloc.active = pm.bootCount)
          | none => false
      else false

/-- `ProposerManager.TxnReceived`.  `none` models the nil-pointer panic
of `MakeAbortBallots(txn, nil)` when the rejection path runs for a txn
that does not allocate this RM. -/
def TxnReceived (pm : PM) (sender : Nat) (txn : TxnMsg) :
    Option (PM × List PMEvent) :=
  match alookup pm.proposers txn.id with
  | some _ => some (pm, [])
  | none =>
      if txnAccept pm sender txn then
        some ({ pm with proposers :=
                  (txn.id, { role := ProposerRole.activeVoter }) :: pm.proposers },
              [PMEvent.proposerStart txn.id ProposerRole.activeVoter])
      else
        match AllocForRMId txn pm.rmId with
        | none => none
        | some alloc =>
            let acceptors := GetAcceptorsFromTxn txn
            let ballots := MakeAbortBallots txn alloc
            let r := NewPaxosProposals pm txn txn.fInc ballots acceptors pm.rmId true
            some ({ r.1 with proposers :=
                      (txn.id, { role := ProposerRole.activeLearner }) :: r.1.proposers },
                  r.2 ++ [PMEvent.proposerStart txn.id ProposerRole.activeLearner])

/-- The two variants of a 2B message. -/
inductive TwoBVotes where
  | failures (rmId : Nat)
  | outcome (o : Outcome)
deriving DecidableEq

/-- `ProposerManager.TwoBTxnVotesReceived`.  `none` models the nil
dereference `alloc.Active()` in the outcome branch when this RM appears
in none of the txn's allocations. -/
def TwoBTxnVotesReceived (pm : PM) (sender txnId : Nat) (txn : TxnMsg)
    (v : TwoBVotes) : Option (PM × List PMEvent) :=
  match v with
  | TwoBVotes.failures rmId =>
      match alookup pm.proposals (txnId, rmId) with
      | some _ => some (pm, [PMEvent.deliverTwoBFailures txnId rmId sender])
      | none => some (pm, [])
  | TwoBVotes.outcome o =>
      match alookup pm.proposers txnId with
      | some _ => some (pm, [PMEvent.deliverOutcome txnId sender o])
      | none =>
          match AllocForRMId txn pm.rmId with
          | none => none
          | some alloc =>
              if alloc.active ≠ 0 then
                let acceptors := GetAcceptorsFromTxn txn
                let ballots := MakeAbortBallots txn alloc
                let r := NewPaxosProposals pm txn txn.fInc ballots acceptors pm.rmId false
                some ({ r.1 with proposers :=
                          (txnId, { role := ProposerRole.activeLearner }) :: r.1.proposers },
                      r.2 ++ [PMEvent.proposerStart txnId ProposerRole.activeLearner,
                              PMEvent.deliverOutcome txnId sender o])
              else
                match o with
                | Outcome.commit c =>
                    some ({ pm with proposers :=
                              (txnId, { role := ProposerRole.passiveLearner }) :: pm.proposers },
                          [PMEvent.proposerStart txnId ProposerRole.passiveLearner,
                           PMEvent.deliverOutcome txnId sender (Outcome.commit c)])
                | Outcome.abort => some (pm, [PMEvent.sendTLC sender txnId])

/-- `ProposerManager.OneBTxnVotesReceived`: route to the proposal or drop. -/
def OneBTxnVotesReceived (pm : PM) (sender txnId rmId : Nat) : PM × List PMEvent :=
  match alookup pm.proposals (txnId, rmId) with
  | some _ => (pm, [PMEvent.deliverOneB txnId rmId sender])
  | none => (pm, [])

/-- `ProposerManager.TxnGloballyCompleteReceived`: deliver or ignore. -/
def TxnGloballyCompleteReceived (pm : PM) (sender txnId : Nat) : PM × List PMEvent :=
  match alookup pm.proposers txnId with
  | some _ => (pm, [PMEvent.deliverTGC txnId sender])
  | none => (pm, [])

/-- `ProposerManager.TxnSubmissionAbortReceived`: instruct the proposer
to abort, or ignore. -/
def TxnSubmissionAbortReceived (pm : PM) (sender txnId : Nat) : PM × List PMEvent :=
  match alookup pm.proposers txnId with
  | some _ => (pm, [PMEvent.proposerAbort txnId])
  | none => (pm, [])

/-- `ProposerManager.TxnFinished`: remove the proposer from the map. -/
def TxnFinished (pm : PM) (txnId : Nat) : PM :=
  { pm with proposers := adelete pm.proposers txnId }

/-- `ProposerManager.AddToPaxosProposals`: merge ballots into the
in-flight proposal keyed by (txnId, rmId), if present. -/
def AddToPaxosProposals (pm : PM) (txnId : Nat) (ballots : List Ballot)
    (rmId : Nat) : PM × List PMEvent :=
  match alookup pm.proposals (txnId, rmId) with
  | some _ =>
      let upd := fun (p : (Nat × Nat) × Proposal) =>
        if p.1 = (txnId, rmId)
        then (p.1, { p.2 with ballots := p.2.ballots ++ ballots })
        else p
      ({ pm with proposals := pm.proposals.map upd },
       [PMEvent.addBallots txnId rmId ballots])
  | none => (pm, [])

/-- One garbage-collection step of `FinishProposers` over an abort
sub-instance RM id. -/
def finishAbortInstance (txnId : Nat) (acc : PM × List PMEvent) (rmId : Nat) :
    PM × List PMEvent :=
  match alookup acc.1.proposals (txnId, rmId) with
  | none => acc
  | some _ =>
      ({ acc.1 with proposals := adelete acc.1.proposals (txnId, rmId) },
       acc.2 ++ [PMEvent.finishProposing txnId rmId])

/-- `ProposerManager.FinishProposers`: drop and finish the own-RM paxos
instance, then drop and finish every abort sub-instance it had opened. -/
def FinishProposers (pm : PM) (txnId : Nat) : PM × List PMEvent :=
  match alookup pm.proposals (txnId, pm.rmId) with
  | none => (pm, [])
  | some prop =>
      let pm1 := { pm with proposals := adelete pm.proposals (txnId, pm.rmId) }
      prop.abortInstances.foldl (finishAbortInstance txnId)
        (pm1, [PMEvent.finishProposing txnId pm.rmId])

/-- `ProposerManager.loadFromData`: dedup on TxnId, then restore a
proposer from its persisted state and start it.  `ProposerFromData`
lives in proposer.go, outside the embedded source, so its result is
taken as a parameter. -/
def loadFromData (pm : PM) (txnId : Nat) (parsed : Except String Proposer) :
    Except String (PM × List PMEvent) :=
  match alookup pm.proposers txnId with
  | some _ => Except.ok (pm, [])
  | none =>
      match parsed with
      | Except.error e => Except.error e
      | Except.ok proposer =>
          Except.ok ({ pm with proposers := (txnId, proposer) :: pm.proposers },
                     [PMEvent.proposerStart txnId proposer.role])

/-- Local action of a Txn: variable id, the ballot cast for it, and the
outcome clock stamped onto it (transaction.go `localAction`, restricted
to the fields the embedded operations touch). -/
structure LocalAction where
  actionId : Nat
  vUUId : Nat
  ballot : Option Ballot
  outcomeClock : Option Nat
  write : Bool
deriving DecidableEq

/-- The five txn state-machine components, S1..S5. -/
inductive TxnState where
  | determineLocalBallots
  | awaitLocalBallots
  | receiveOutcome
  | awaitLocallyComplete
  | receiveCompletion
deriving DecidableEq

/-- Observable effects of the txn state machine: dispatches to variables,
executor enqueues, upward callbacks, and state transitions (the Go code
advances the state pointer before side effects, and the `stateAdvance`
markers make that ordering part of the trace). -/
inductive TxnEvent where
  | receiveTxn (vUUId : Nat)
  | enqueuePreAbort
  | enqueueAllTxnBallotsComplete
  | txnBallotsComplete (ballots : List (Option Ballot))
  | receiveTxnOutcome (vUUId : Nat)
  | txnLocallyComplete
  | txnFinishedUp
  | stateAdvance (target : TxnState)
  | stateTerminal
deriving DecidableEq

/-- The Txn with its five embedded state components flattened into one
record (the components share the Txn by back-pointer in Go). -/
structure TxnSM where
  id : Nat
  localActions : List LocalAction
  voter : Bool
  currentState : Option TxnState
  pendingVote : Int
  preAborted : Bool
  preAbortedBool : Bool
  outcomeClock : Option Nat
  aborted : Bool
  activeFramesCount : Int
  completed : Bool
deriving DecidableEq

/-- `Txn.nextState`: advance the current-state pointer and run the new
state's `start()`.  The only non-trivial `start` is S4's
(`txnAwaitLocallyComplete`), which immediately completes when the txn is
aborted or has no active frames, cascading into S5 and firing the
`TxnLocallyComplete` upward callback.  Calling `nextState` in the
terminal state panics. -/
def nextState (t : TxnSM) : Except String (TxnSM × List TxnEvent) :=
  match t.currentState with
  | some TxnState.determineLocalBallots =>
      Except.ok ({ t with currentState := some TxnState.awaitLocalBallots },
                 [TxnEvent.stateAdvance TxnState.awaitLocalBallots])
  | some TxnState.awaitLocalBallots =>
      Except.ok ({ t with currentState := some TxnState.receiveOutcome },
                 [TxnEvent.stateAdvance TxnState.receiveOutcome])
  | some TxnState.receiveOutcome =>
      if t.aborted ∨ t.activeFramesCount = 0 then
        Except.ok ({ t with currentState := some TxnState.receiveCompletion },
                   [TxnEvent.stateAdvance TxnState.awaitLocallyComplete,
                    TxnEvent.stateAdvance TxnState.receiveCompletion,
                    TxnEvent.txnLocallyComplete])
      else
        Except.ok ({ t with currentState := some TxnState.awaitLocallyComplete },
                   [TxnEvent.stateAdvance TxnState.awaitLocallyComplete])
  | some TxnState.awaitLocallyComplete =>
      Except.ok ({ t with currentState := some TxnState.receiveCompletion },
                 [TxnEvent.stateAdvance TxnState.receiveCompletion])
  | some TxnState.receiveCompletion =>
      Except.ok ({ t with currentState := none }, [TxnEvent.stateTerminal])
  | none => Except.error "nextState called on txn in terminal state"

/-- `Txn.Start`: initialise the components (pendingVote only for voters,
activeFramesCount always) and enter S1 (voter) or S3 (learner).  A
voter's S1 `start` advances to S2 first and then dispatches `ReceiveTxn`
to every local action's variable. -/
def TxnStart (t : TxnSM) (voter : Bool) : TxnSM × List TxnEvent :=
  let t1 := { t with
    voter := voter
    pendingVote := if voter then (t.localActions.length : Int) else t.pendingVote
    activeFramesCount := (t.localActions.length : Int) }
  if voter then
    ({ t1 with currentState := some TxnState.awaitLocalBallots },
     TxnEvent.stateAdvance TxnState.awaitLocalBallots ::
       t1.localActions.map (fun a => TxnEvent.receiveTxn a.vUUId))
  else
    ({ t1 with currentState := some TxnState.receiveOutcome }, [])

/-- `txnAwaitLocalBallots.voteCast`: the first abort vote CASes
`preAborted` and enqueues the `preAbort` task; every call decrements
`pendingVote` and enqueues `allTxnBallotsComplete` on reaching zero.
Returns the (possibly upgraded) abort flag handed back to the voting
variable. -/
def voteCast (t : TxnSM) (ballot : Ballot) (ab : Bool) : TxnSM × List TxnEvent × Bool :=
  let fire := ab && !t.preAborted
  let t1 := if fire then { t with preAborted := true } else t
  let evs1 := if fire then [TxnEvent.enqueuePreAbort] else ([] : List TxnEvent)
  let abortR := ab || t1.preAborted
  let t2 := { t1 with pendingVote := t1.pendingVote - 1 }
  let evs2 := if t2.pendingVote = 0 then [TxnEvent.enqueueAllTxnBallotsComplete]
              else ([] : List TxnEvent)
  (t2, evs1 ++ evs2, abortR)

/-- Sequential application of `voteCast` for a list of (ballot, abort)
votes, accumulating events. -/
def castVotes (t : TxnSM) (votes : List (Ballot × Bool)) : TxnSM × List TxnEvent :=
  match votes with
  | [] => (t, [])
  | v :: rest =>
      let r := voteCast t v.1 v.2
      let r2 := castVotes r.1 rest
      (r2.1, r.2.1 ++ r2.2)

/-- `txnAwaitLocalBallots.allTxnBallotsComplete`: with the txn still in
S2, advance the state first, then collect one ballot slot per local
action and fire the `TxnBallotsComplete` upward callback; in any other
state it panics. -/
def allTxnBallotsComplete (t : TxnSM) : Except String (TxnSM × List TxnEvent) :=
  if t.currentState = some TxnState.awaitLocalBallots then
    match nextState t with
    | Except.error e => Except.error e
    | Except.ok (t1, evs) =>
        Except.ok (t1, evs ++
          [TxnEvent.txnBallotsComplete (t1.localActions.map (fun a => a.ballot))])
  else Except.error "ballots completed with txn in wrong state"

/-- `txnReceiveOutcome.BallotOutcomeReceived`: silent when an outcome was
already recorded; fatal outside S3; otherwise record the outcome, advance
the state first, then (fatal if preAborted yet committed; early return if
preAborted and aborted) stamp the outcome clock onto every local action
and dispatch `ReceiveTxnOutcome` to its variable. -/
def BallotOutcomeReceived (t : TxnSM) (o : Outcome) : Except String (TxnSM × List TxnEvent) :=
  if t.outcomeClock.isSome ∨ t.aborted then Except.ok (t, [])
  else if t.currentState = some TxnState.receiveOutcome then
    let t1 := match o with
      | Outcome.commit c => { t with outcomeClock := some c }
      | Outcome.abort => { t with aborted := true }
    match nextState t1 with
    | Except.error e => Except.error e
    | Except.ok (t2, evs) =>
        if t2.preAbortedBool then
          if t2.aborted = false then
            Except.error "preAborted txn received a commit outcome"
          else Except.ok (t2, evs)
        else
          let t3 := { t2 with localActions :=
            t2.localActions.map (fun a => { a with outcomeClock := t2.outcomeClock }) }
          Except.ok (t3, evs ++
            t2.localActions.map (fun a => TxnEvent.receiveTxnOutcome a.vUUId))
  else Except.error "ballot outcome received with txn in wrong state"

/-- Feed the same outcome `n` times in sequence, propagating a panic and
accumulating events. -/
def feedOutcomeN : Nat → TxnSM → Outcome → Except String (TxnSM × List TxnEvent)
  | 0, t, _ => Except.ok (t, [])
  | n + 1, t, o =>
      match BallotOutcomeReceived t o with
      | Except.error e => Except.error e
      | Except.ok (t1, evs) =>
          match feedOutcomeN n t1 o with
          | Except.error e => Except.error e
          | Except.ok (t2, evs2) => Except.ok (t2, evs ++ evs2)

/-- Variable snapshot handed over by an emigrating RM. -/
structure VarCap where
  vcId : Nat
  writeTxnId : Nat
  writeTxnClock : Nat
  writesClock : Nat
  positions : Nat
deriving DecidableEq

/-- The Txn built by `ImmigrationTxnFromCap` before it is started: one
write local action per varCap, each with its outcome clock already set
from the varCap's write-txn clock. -/
def immigrationTxnInit (txnId : Nat) (varCaps : List VarCap) : TxnSM :=
  { id := txnId
    localActions := varCaps.map (fun vc =>
      { actionId := vc.writeTxnId, vUUId := vc.vcId, ballot := none
        outcomeClock := some vc.writeTxnClock, write := true })
    voter := false, currentState := none, pendingVote := 0
    preAborted := false, preAbortedBool := false, outcomeClock := none
    aborted := false, activeFramesCount := 0, completed := false }

/-- `ImmigrationTxnFromCap`: build the txn from the varCaps, start it as
a non-voter (entering S3), take one explicit `nextState` step out of S3,
then dispatch `ReceiveTxnOutcome` (with createIfMissing) for every local
action. -/
def ImmigrationTxnFromCap (txnId : Nat) (varCaps : List VarCap) :
    Except String (TxnSM × List TxnEvent) :=
  let r1 := TxnStart (immigrationTxnInit txnId varCaps) false
  match nextState r1.1 with
  | Except.error e => Except.error e
  | Except.ok (t2, evs2) =>
      Except.ok (t2, r1.2 ++ evs2 ++
        t2.localActions.map (fun a => TxnEvent.receiveTxnOutcome a.vUUId))

/-- Acceptance condition exactly as claim C1 words it (for comparison
with the code's `txnAccept`): topology nil, or txn version equal to the
current *or* the next version, sender not removed, and this RM's
allocation present with Active equal to BootCount. -/
def claimC1Accept (pm : PM) (sender : Nat) (txn : TxnMsg) : Bool :=
  match pm.topology with
  | none => true
  | some topo =>
      (decide (topo.version = txn.topologyVersion)
        || decide (topo.next = some txn.topologyVersion))
      && !(decide (sender ∈ topo.rmsRemoved))
      && (match AllocForRMId txn pm.rmId with
          | some alloc => decide (alloc.active = pm.bootCount)
          | none => false)

/-- Manager with a topology that has a next version: current v3, next v4. -/
def pmC1 : PM :=
  { rmId := 1, bootCount := 7
    topology := some { version := 3, next := some 4, rmsRemoved := [] }
    proposers := [], proposals := [] }

/-- Txn carrying the *current* topology version 3 while a next topology
exists, allocated to RM 1 with the right boot count. -/
def txnC1 : TxnMsg :=
  { id := 10, topologyVersion := 3, fInc := 1
    allocations := [{ rmId := 1, active := 7, actionIndices := [0] }]
    actions := [{ varId := 5 }] }

/-- Manager with no topology and empty maps. -/
def pmW : PM :=
  { rmId := 1, bootCount := 7, topology := none, proposers := [], proposals := [] }

/-- Txn allocated to RM 1 with a non-zero (matching) boot count. -/
def txnW2 : TxnMsg :=
  { id := 20, topologyVersion := 3, fInc := 1
    allocations := [{ rmId := 1, active := 7, actionIndices := [0] }]
    actions := [{ varId := 5 }] }

/-- Txn allocated to RM 1 with Active = 0 (passive learner). -/
def txnW2p : TxnMsg :=
  { id := 21, topologyVersion := 3, fInc := 1
    allocations := [{ rmId := 1, active := 0, actionIndices := [0] }]
    actions := [{ varId := 5 }] }

/-- Txn with four allocations and fInc = 2 (acceptor quorum 3). -/
def txnC7 : TxnMsg :=
  { id := 30, topologyVersion := 0, fInc := 2
    allocations := [{ rmId := 1, active := 7, actionIndices := [] },
                    { rmId := 2, active := 0, actionIndices := [] },
                    { rmId := 3, active := 0, actionIndices := [] },
                    { rmId := 4, active := 0, actionIndices := [] }]
    actions := [] }

/-- Txn that does not allocate RM 1 at all. -/
def txnC10 : TxnMsg :=
  { id := 40, topologyVersion := 0, fInc := 1
    allocations := [{ rmId := 2, active := 1, actionIndices := [0] }]
    actions := [{ varId := 5 }] }

/-- A txn state that has already recorded a commit outcome. -/
def t3ex : TxnSM :=
  { id := 1, localActions := [], voter := false
    currentState := some TxnState.awaitLocallyComplete, pendingVote := 0
    preAborted := false, preAbortedBool := false, outcomeClock := some 5
    aborted := false, activeFramesCount := 0, completed := false }

/-- A learner txn freshly in S3 with one local action. -/
def t3feed : TxnSM :=
  { id := 2
    localActions := [{ actionId := 2, vUUId := 9, ballot := none
                       outcomeClock := none, write := true }]
    voter := false, currentState := some TxnState.receiveOutcome, pendingVote := 0
    preAborted := false, preAbortedBool := false, outcomeClock := none
    aborted := false, activeFramesCount := 1, completed := false }

/-- A voter txn in S3 whose preAborted flag was set during S2. -/
def t6pre : TxnSM :=
  { id := 6
    localActions := [{ actionId := 6, vUUId := 11
                       ballot := some { varId := 11, vote := Vote.abortDeadlock }
                       outcomeClock := none, write := false }]
    voter := true, currentState := some TxnState.receiveOutcome, pendingVote := 0
    preAborted := true, preAbortedBool := true, outcomeClock := none
    aborted := false, activeFramesCount := 1, completed := false }

/-- A voter txn in S2 with one local action whose ballot is cast and one
pending vote. -/
def t8awaiting : TxnSM :=
  { id := 8
    localActions := [{ actionId := 8, vUUId := 21
                       ballot := some { varId := 21, vote := Vote.commit }
                       outcomeClock := none, write := false }]
    voter := true, currentState := some TxnState.awaitLocalBallots, pendingVote := 1
    preAborted := false, preAbortedBool := false, outcomeClock := none
    aborted := false, activeFramesCount := 1, completed := false }

/-- Two immigrating variable snapshots. -/
def vcsW : List VarCap :=
  [{ vcId := 100, writeTxnId := 40, writeTxnClock := 41, writesClock := 42, positions := 0 },
   { vcId := 101, writeTxnId := 50, writeTxnClock := 51, writesClock := 52, positions := 0 }]

-- Association-list facts

theorem alookup_eq_none_iff {κ α : Type} [DecidableEq κ] (l : List (κ × α)) (k : κ) :
    alookup l k = none ↔ k ∉ l.map Prod.fst := by
  induction l with
  | nil => simp [alookup]
  | cons p rest ih =>
      obtain ⟨k0, v⟩ := p
      simp only [alookup, List.map_cons, List.mem_cons]
      by_cases h : k0 = k
      · subst h
        simp
      · rw [if_neg h, ih]
        constructor
        · intro hk hor
          rcases hor with h1 | h2
          · exact h h1.symm
          · exact hk h2
        · intro hk h2
          exact hk (Or.inr h2)

theorem nodupKeys_insert {κ α : Type} [DecidableEq κ] {l : List (κ × α)} {k : κ} {v : α}
    (hn : (l.map Prod.fst).Nodup) (hl : alookup l k = none) :
    (((k, v) :: l).map Prod.fst).Nodup := by
  simp only [List.map_cons, List.nodup_cons]
  exact ⟨(alookup_eq_none_iff l k).1 hl, hn⟩

theorem nodupKeys_filter {κ α : Type} [DecidableEq κ] (l : List (κ × α))
    (p : κ × α → Bool) (hn : (l.map Prod.fst).Nodup) :
    ((l.filter p).map Prod.fst).Nodup :=
  hn.sublist ((List.filter_sublist l).map Prod.fst)

theorem alookup_cons_self {κ α : Type} [DecidableEq κ] (l : List (κ × α)) (k : κ) (v : α) :
    alookup ((k, v) :: l) k = some v := by
  simp [alookup]

-- NewPaxosProposals facts

theorem newPaxosProposals_proposers (pm : PM) (txn : TxnMsg) (fInc : Nat)
    (ballots : List Ballot) (acceptors : List Nat) (rmId : Nat) (skip : Bool) :
    ((NewPaxosProposals pm txn fInc ballots acceptors rmId skip).1).proposers
      = pm.proposers := by
  unfold NewPaxosProposals
  cases h : alookup pm.proposals (txn.id, rmId) <;> simp [h]

theorem newPaxosProposals_keys_nodup (pm : PM) (txn : TxnMsg) (fInc : Nat)
    (ballots : List Ballot) (acceptors : List Nat) (rmId : Nat) (skip : Bool)
    (hn : (pm.proposals.map Prod.fst).Nodup) :
    (((NewPaxosProposals pm txn fInc ballots acceptors rmId skip).1).proposals.map
        Prod.fst).Nodup := by
  unfold NewPaxosProposals
  cases h : alookup pm.proposals (txn.id, rmId) with
  | none =>
      simpa using
        nodupKeys_insert (v := NewProposal txn.id rmId fInc ballots acceptors skip) hn h
  | some _ => simpa using hn

theorem newPaxosProposals_inserts (pm : PM) (txn : TxnMsg) (fInc : Nat)
    (ballots : List Ballot) (acceptors : List Nat) (rmId : Nat) (skip : Bool)
    (h : alookup pm.proposals (txn.id, rmId) = none) :
    alookup ((NewPaxosProposals pm txn fInc ballots acceptors rmId skip).1).proposals
        (txn.id, rmId)
      = some (NewProposal txn.id rmId fInc ballots acceptors skip) := by
  unfold NewPaxosProposals
  simp [h, alookup_cons_self]

/-- Claim C7: `GetAcceptorsFromTxn` returns the txn's allocation RM ids
in declaration order truncated to the first `2 * fInc - 1` entries; with
at least that many allocations the acceptor list has exactly
`2 * fInc - 1` members; and the result is a function of the txn's
allocations and fInc alone, hence identical at every proposer. -/
theorem claim_C7 (txn : TxnMsg) (h : 1 ≤ txn.fInc) :
    GetAcceptorsFromTxn txn
        = (txn.allocations.map (fun a => a.rmId)).take (txn.fInc + txn.fInc - 1) ∧
    (txn.fInc + txn.fInc - 1 ≤ txn.allocations.length →
      (GetAcceptorsFromTxn txn).length = txn.fInc + txn.fInc - 1) ∧
    (∀ txn2 : TxnMsg, txn2.fInc = txn.fInc → txn2.allocations = txn.allocations →
      GetAcceptorsFromTxn txn2 = GetAcceptorsFromTxn txn) := by
  refine ⟨?_, ?_, ?_⟩
  · unfold GetAcceptorsFromTxn
    exact List.map_take _ _ _
  · intro hlen
    unfold GetAcceptorsFromTxn
    simp only [List.length_map, List.length_take]
    omega
  · intro txn2 hf ha
    unfold GetAcceptorsFromTxn
    rw [hf, ha]

/-- Witness for C7 at a txn with fInc = 2 and four allocations. -/
theorem claim_C7_witness :
    1 ≤ txnC7.fInc ∧ (GetAcceptorsFromTxn txnC7).length = txnC7.fInc + txnC7.fInc - 1 :=
  ⟨by decide, (claim_C7 txnC7 (by decide)).2.1 (by decide)⟩

/-- Claim C10: in the Outcome branch of `TwoBTxnVotesReceived` with no
live proposer, the operation faults (models the nil dereference of
`AllocForRMId`'s result) exactly when this RM appears in none of the
txn's allocations. -/
theorem claim_C10 (pm : PM) (sender txnId : Nat) (txn : TxnMsg) (o : Outcome)
    (hnp : alookup pm.proposers txnId = none) :
    (TwoBTxnVotesReceived pm sender txnId txn (TwoBVotes.outcome o) = none
        ↔ AllocForRMId txn pm.rmId = none) ∧
    (AllocForRMId txn pm.rmId = none ↔ ∀ a ∈ txn.allocations, a.rmId ≠ pm.rmId) := by
  constructor
  · cases h : AllocForRMId txn pm.rmId with
    | none => simp [TwoBTxnVotesReceived, hnp, h]
    | some alloc =>
        simp only [TwoBTxnVotesReceived, hnp, h]
        constructor
        · intro hcontra
          by_cases hact : alloc.active ≠ 0
          · simp [hact] at hcontra
          · cases o <;> simp [hact] at hcontra
        · intro hc
          exact absurd hc (by simp)
  · simp [AllocForRMId, List.find?_eq_none]

/-- Witness for C10: a 2B outcome for a txn that does not allocate RM 1
faults at a manager with no proposer for it. -/
theorem claim_C10_witness :
    TwoBTxnVotesReceived pmW 2 40 txnC10 (TwoBVotes.outcome Outcome.abort) = none :=
  (claim_C10 pmW 2 40 txnC10 Outcome.abort (by decide)).1.mpr (by decide)

/-- The two map invariants of the ProposerManager: at most one Proposer
per TxnId and at most one Proposal per (TxnId, RM id). -/
def PMInv (pm : PM) : Prop :=
  (pm.proposers.map Prod.fst).Nodup ∧ (pm.proposals.map Prod.fst).Nodup

theorem txnReceived_inv {pm : PM} {sender : Nat} {txn : TxnMsg} {pm2 : PM}
    {evs : List PMEvent} (hinv : PMInv pm)
    (hres : TxnReceived pm sender txn = some (pm2, evs)) : PMInv pm2 := by
  obtain ⟨h1, h2⟩ := hinv
  unfold TxnReceived at hres
  cases hp : alookup pm.proposers txn.id with
  | some _ =>
      rw [hp] at hres
      simp at hres
      obtain ⟨rfl, rfl⟩ := hres
      exact ⟨h1, h2⟩
  | none =>
      rw [hp] at hres
      simp only [] at hres
      split at hres
      · simp at hres
        obtain ⟨rfl, rfl⟩ := hres
        exact ⟨nodupKeys_insert h1 hp, h2⟩
      · cases ha : AllocForRMId txn pm.rmId with
        | none => rw [ha] at hres; simp at hres
        | some alloc =>
            rw [ha] at hres
            simp at hres
            obtain ⟨rfl, rfl⟩ := hres
            constructor
            · rw [List.map_cons, List.nodup_cons, newPaxosProposals_proposers]
              exact ⟨(alookup_eq_none_iff _ _).1 hp, h1⟩
            · exact newPaxosProposals_keys_nodup _ _ _ _ _ _ _ h2

theorem loadFromData_inv {pm : PM} {txnId : Nat} {parsed : Except String Proposer}
    {pm2 : PM} {evs : List PMEvent} (hinv : PMInv pm)
    (hres : loadFromData pm txnId parsed = Except.ok (pm2, evs)) : PMInv pm2 := by
  obtain ⟨h1, h2⟩ := hinv
  unfold loadFromData at hres
  cases hp : alookup pm.proposers txnId with
  | some _ =>
      rw [hp] at hres
      simp at hres
      obtain ⟨rfl, rfl⟩ := hres
      exact ⟨h1, h2⟩
  | none =>
      rw [hp] at hres
      cases parsed with
      | error e => simp at hres
      | ok proposer =>
          simp at hres
          obtain ⟨rfl, rfl⟩ := hres
          exact ⟨nodupKeys_insert h1 hp, h2⟩

theorem twoB_inv {pm : PM} {sender txnId : Nat} {txn : TxnMsg} {v : TwoBVotes}
    {pm2 : PM} {evs : List PMEvent} (hinv : PMInv pm)
    (hres : TwoBTxnVotesReceived pm sender txnId txn v = some (pm2, evs)) : PMInv pm2 := by
  obtain ⟨h1, h2⟩ := hinv
  cases v with
  | failures rmId =>
      simp only [TwoBTxnVotesReceived] at hres
      cases hq : alookup pm.proposals (txnId, rmId) with
      | some _ =>
          rw [hq] at hres
          simp at hres
          obtain ⟨rfl, rfl⟩ := hres
          exact ⟨h1, h2⟩
      | none =>
          rw [hq] at hres
          simp at hres
          obtain ⟨rfl, rfl⟩ := hres
          exact ⟨h1, h2⟩
  | outcome o =>
      simp only [TwoBTxnVotesReceived] at hres
      cases hp : alookup pm.proposers txnId with
      | some _ =>
          rw [hp] at hres
          simp at hres
          obtain ⟨rfl, rfl⟩ := hres
          exact ⟨h1, h2⟩
      | none =>
          rw [hp] at hres
          cases ha : AllocForRMId txn pm.rmId with
          | none => rw [ha] at hres; simp at hres
          | some alloc =>
              rw [ha] at hres
              simp only [] at hres
              split at hres
              · simp at hres
                obtain ⟨rfl, rfl⟩ := hres
                constructor
                · rw [List.map_cons, List.nodup_cons, newPaxosProposals_proposers]
                  exact ⟨(alookup_eq_none_iff _ _).1 hp, h1⟩
                · exact newPaxosProposals_keys_nodup _ _ _ _ _ _ _ h2
              · cases o with
                | commit c =>
                    simp at hres
                    obtain ⟨rfl, rfl⟩ := hres
                    exact ⟨nodupKeys_insert h1 hp, h2⟩
                | abort =>
                    simp at hres
                    obtain ⟨rfl, rfl⟩ := hres
                    exact ⟨h1, h2⟩

theorem txnFinished_inv {pm : PM} {txnId : Nat} (hinv : PMInv pm) :
    PMInv (TxnFinished pm txnId) := by
  obtain ⟨h1, h2⟩ := hinv
  exact ⟨nodupKeys_filter _ _ h1, h2⟩

theorem finishFold_inv (txnId : Nat) (rms : List Nat) :
    ∀ acc : PM × List PMEvent, PMInv acc.1 →
      PMInv (rms.foldl (finishAbortInstance txnId) acc).1 := by
  induction rms with
  | nil => intro acc h; simpa using h
  | cons r rest ih =>
      intro acc h
      obtain ⟨h1, h2⟩ := h
      simp only [List.foldl_cons]
      apply ih
      unfold finishAbortInstance
      cases hl : alookup acc.1.proposals (txnId, r) with
      | none => exact ⟨h1, h2⟩
      | some _ => exact ⟨h1, nodupKeys_filter _ _ h2⟩

theorem finishProposers_inv {pm : PM} {txnId : Nat} (hinv : PMInv pm) :
    PMInv (FinishProposers pm txnId).1 := by
  obtain ⟨h1, h2⟩ := hinv
  unfold FinishProposers
  cases hl : alookup pm.proposals (txnId, pm.rmId) with
  | none => exact ⟨h1, h2⟩
  | some prop =>
      exact finishFold_inv txnId prop.abortInstances _ ⟨h1, nodupKeys_filter _ _ h2⟩

theorem addToPaxos_inv {pm : PM} {txnId : Nat} {ballots : List Ballot} {rmId : Nat}
    (hinv : PMInv pm) : PMInv (AddToPaxosProposals pm txnId ballots rmId).1 := by
  obtain ⟨h1, h2⟩ := hinv
  unfold AddToPaxosProposals
  cases hl : alookup pm.proposals (txnId, rmId) with
  | none => exact ⟨h1, h2⟩
  | some prop =>
      refine ⟨h1, ?_⟩
      simp only [List.map_map]
      have : ∀ p ∈ pm.proposals,
          (Prod.fst ∘ fun p : (Nat × Nat) × Proposal =>
            if p.1 = (txnId, rmId)
            then (p.1, { p.2 with ballots := p.2.ballots ++ ballots })
            else p) p = Prod.fst p := by
        intro p hp
        by_cases hk : p.1 = (txnId, rmId) <;> simp [hk]
      rw [List.map_congr_left this]
      exact h2

/-- Claim C4: every embedded ProposerManager operation preserves the map
invariants: at most one Proposer per TxnId in `proposers` and at most
one Proposal per (TxnId, RM id) in `proposals`; in particular
TxnReceived, loadFromData and NewPaxosProposals check for an existing
entry before inserting and never overwrite one. -/
theorem claim_C4 (pm : PM) (hinv : PMInv pm) :
    (∀ sender txn pm2 evs, TxnReceived pm sender txn = some (pm2, evs) → PMInv pm2) ∧
    (∀ txnId parsed pm2 evs,
       loadFromData pm txnId parsed = Except.ok (pm2, evs) → PMInv pm2) ∧
    (∀ txn fInc ballots acceptors rmId skip,
       PMInv (NewPaxosProposals pm txn fInc ballots acceptors rmId skip).1) ∧
    (∀ sender txnId txn v pm2 evs,
       TwoBTxnVotesReceived pm sender txnId txn v = some (pm2, evs) → PMInv pm2) ∧
    (∀ txnId, PMInv (TxnFinished pm txnId)) ∧
    (∀ txnId, PMInv (FinishProposers pm txnId).1) ∧
    (∀ txnId ballots rmId, PMInv (AddToPaxosProposals pm txnId ballots rmId).1) := by
  refine ⟨?_, ?_, ?_, ?_, ?_, ?_, ?_⟩
  · intro sender txn pm2 evs hres
    exact txnReceived_inv hinv hres
  · intro txnId parsed pm2 evs hres
    exact loadFromData_inv hinv hres
  · intro txn fInc ballots acceptors rmId skip
    exact ⟨by rw [newPaxosProposals_proposers]; exact hinv.1,
           newPaxosProposals_keys_nodup _ _ _ _ _ _ _ hinv.2⟩
  · intro sender txnId txn v pm2 evs hres
    exact twoB_inv hinv hres
  · intro txnId
    exact txnFinished_inv hinv
  · intro txnId
    exact finishProposers_inv hinv
  · intro txnId ballots rmId
    exact addToPaxos_inv hinv

/-- Witness for C4: the invariant holds at the empty manager and is
preserved by a concrete accepted TxnReceived. -/
theorem claim_C4_witness :
    PMInv pmW ∧
    PMInv { pmW with proposers := [(20, { role := ProposerRole.activeVoter })] } :=
  ⟨⟨List.nodup_nil, List.nodup_nil⟩,
   (claim_C4 pmW ⟨List.nodup_nil, List.nodup_nil⟩).1 2 txnW2
     { pmW with proposers := [(20, { role := ProposerRole.activeVoter })] }
     [PMEvent.proposerStart 20 ProposerRole.activeVoter] (by decide)⟩

theorem txnTopoVersionOK_iff (topo : Topology) (tv : Nat) :
    txnTopoVersionOK topo tv = true ↔
      ((topo.next = none ∧ topo.version = tv) ∨ topo.next = some tv) := by
  cases hn : topo.next with
  | none => simp [txnTopoVersionOK, hn]
  | some nv => simp [txnTopoVersionOK, hn]

theorem txnAccept_iff (pm : PM) (sender : Nat) (txn : TxnMsg) (alloc : Allocation)
    (ha : AllocForRMId txn pm.rmId = some alloc) :
    txnAccept pm sender txn = true ↔
      (pm.topology = none ∨
       ∃ topo, pm.topology = some topo ∧
         ((topo.next = none ∧ topo.version = txn.topologyVersion) ∨
           topo.next = some txn.topologyVersion) ∧
         sender ∉ topo.rmsRemoved ∧
         alloc.active = pm.bootCount) := by
  cases hto : pm.topology with
  | none => simp [txnAccept, hto]
  | some topo =>
      simp only [txnAccept, hto]
      by_cases hv : txnTopoVersionOK topo txn.topologyVersion = true
      · have hv' := (txnTopoVersionOK_iff topo txn.topologyVersion).1 hv
        by_cases hs : sender ∈ topo.rmsRemoved
        · simp [hv, hs]
        · simp [hv, hs, ha, hv']
      · have hv' : ¬((topo.next = none ∧ topo.version = txn.topologyVersion) ∨
            topo.next = some txn.topologyVersion) :=
          fun hd => hv ((txnTopoVersionOK_iff topo txn.topologyVersion).2 hd)
        simp [hv, hv']

/-- Claim C1 (amended): with no existing Proposer and this RM allocated,
`TxnReceived` creates an ActiveVoter Proposer exactly when the stored
topology is nil, or the txn's topology version matches the *barrier*
version (the current version when no next topology exists, the next
version when one exists) and the sender is not removed and this RM's
allocation has Active equal to BootCount; in all other cases the txn is
rejected (an ActiveLearner is installed instead). -/
theorem claim_C1 (pm : PM) (sender : Nat) (txn : TxnMsg) (alloc : Allocation)
    (hnp : alookup pm.proposers txn.id = none)
    (ha : AllocForRMId txn pm.rmId = some alloc) :
    ∃ pm2 evs, TxnReceived pm sender txn = some (pm2, evs) ∧
      (alookup pm2.proposers txn.id = some { role := ProposerRole.activeVoter } ↔
        (pm.topology = none ∨
         ∃ topo, pm.topology = some topo ∧
           ((topo.next = none ∧ topo.version = txn.topologyVersion) ∨
             topo.next = some txn.topologyVersion) ∧
           sender ∉ topo.rmsRemoved ∧
           alloc.active = pm.bootCount)) ∧
      (alookup pm2.proposers txn.id = some { role := ProposerRole.activeVoter } ∨
       alookup pm2.proposers txn.id = some { role := ProposerRole.activeLearner }) := by
  by_cases hacc : txnAccept pm sender txn = true
  · refine ⟨{ pm with proposers :=
        (txn.id, { role := ProposerRole.activeVoter }) :: pm.proposers },
      [PMEvent.proposerStart txn.id ProposerRole.activeVoter], ?_, ?_, ?_⟩
    · unfold TxnReceived
      rw [hnp]
      simp [hacc]
    · exact iff_of_true (alookup_cons_self _ _ _)
        ((txnAccept_iff pm sender txn alloc ha).1 hacc)
    · exact Or.inl (alookup_cons_self _ _ _)
  · have hacc' : txnAccept pm sender txn = false := by simpa using hacc
    refine ⟨{ (NewPaxosProposals pm txn txn.fInc (MakeAbortBallots txn alloc)
                (GetAcceptorsFromTxn txn) pm.rmId true).1 with
              proposers := (txn.id, { role := ProposerRole.activeLearner }) ::
                (NewPaxosProposals pm txn txn.fInc (MakeAbortBallots txn alloc)
                  (GetAcceptorsFromTxn txn) pm.rmId true).1.proposers },
      (NewPaxosProposals pm txn txn.fInc (MakeAbortBallots txn alloc)
        (GetAcceptorsFromTxn txn) pm.rmId true).2 ++
        [PMEvent.proposerStart txn.id ProposerRole.activeLearner], ?_, ?_, ?_⟩
    · unfold TxnReceived
      rw [hnp]
      simp [hacc', ha]
    · rw [alookup_cons_self]
      exact iff_of_false (by decide)
        (fun hR => hacc ((txnAccept_iff pm sender txn alloc ha).2 hR))
    · exact Or.inr (alookup_cons_self _ _ _)

/-- Witness for C1: at a nil-topology manager the txn is accepted and an
ActiveVoter Proposer is installed. -/
theorem claim_C1_witness :
    ∃ pm2 evs, TxnReceived pmW 2 txnW2 = some (pm2, evs) ∧
      alookup pm2.proposers txnW2.id = some { role := ProposerRole.activeVoter } := by
  obtain ⟨pm2, evs, heq, hiff, _⟩ :=
    claim_C1 pmW 2 txnW2 { rmId := 1, active := 7, actionIndices := [0] }
      (by decide) (by decide)
  exact ⟨pm2, evs, heq, hiff.2 (Or.inl (by decide))⟩

/-- Counterexample to C1 as stated: with current version 3 and next
version 4, a txn carrying version 3 satisfies the claim's acceptance
condition ("equals either the current or the next topology version", the
sender not removed, allocation boot count matching), yet the code rejects
it and installs an ActiveLearner, not an ActiveVoter. -/
theorem claim_C1_cex :
    claimC1Accept pmC1 2 txnC1 = true ∧
    (TxnReceived pmC1 2 txnC1).map (fun r => alookup r.1.proposers txnC1.id)
        = some (some { role := ProposerRole.activeLearner }) ∧
    ({ role := ProposerRole.activeLearner } : Proposer)
        ≠ { role := ProposerRole.activeVoter } := by
  refine ⟨by decide, by decide, by decide⟩

/-- Claim C2: a 2B Outcome for a TxnId with no live Proposer: with
Active not 0 the manager starts a new abort paxos proposal with
skipPhase1 = false, installs an ActiveLearner and delivers the outcome;
with Active = 0 and a Commit outcome it installs a PassiveLearner and
delivers; with Active = 0 and an abort outcome it creates no Proposer,
mutates neither map, and sends exactly one TxnLocallyComplete back to
the sender via a one-shot sender. -/
theorem claim_C2 (pm : PM) (sender txnId : Nat) (txn : TxnMsg) (o : Outcome)
    (alloc : Allocation)
    (hnp : alookup pm.proposers txnId = none)
    (ha : AllocForRMId txn pm.rmId = some alloc) :
    (alloc.active ≠ 0 →
      ∃ pm2 evs,
        TwoBTxnVotesReceived pm sender txnId txn (TwoBVotes.outcome o)
            = some (pm2, evs) ∧
        alookup pm2.proposers txnId = some { role := ProposerRole.activeLearner } ∧
        PMEvent.deliverOutcome txnId sender o ∈ evs ∧
        (alookup pm.proposals (txn.id, pm.rmId) = none →
          alookup pm2.proposals (txn.id, pm.rmId)
            = some (NewProposal txn.id pm.rmId txn.fInc (MakeAbortBallots txn alloc)
                (GetAcceptorsFromTxn txn) false))) ∧
    (alloc.active = 0 → ∀ c, o = Outcome.commit c →
      TwoBTxnVotesReceived pm sender txnId txn (TwoBVotes.outcome o)
        = some ({ pm with proposers :=
                    (txnId, { role := ProposerRole.passiveLearner }) :: pm.proposers },
                [PMEvent.proposerStart txnId ProposerRole.passiveLearner,
                 PMEvent.deliverOutcome txnId sender (Outcome.commit c)])) ∧
    (alloc.active = 0 → o = Outcome.abort →
      TwoBTxnVotesReceived pm sender txnId txn (TwoBVotes.outcome o)
        = some (pm, [PMEvent.sendTLC sender txnId])) := by
  refine ⟨?_, ?_, ?_⟩
  · intro hact
    have heq : TwoBTxnVotesReceived pm sender txnId txn (TwoBVotes.outcome o)
        = some ({ (NewPaxosProposals pm txn txn.fInc (MakeAbortBallots txn alloc)
                    (GetAcceptorsFromTxn txn) pm.rmId false).1 with
                  proposers := (txnId, { role := ProposerRole.activeLearner }) ::
                    (NewPaxosProposals pm txn txn.fInc (MakeAbortBallots txn alloc)
                      (GetAcceptorsFromTxn txn) pm.rmId false).1.proposers },
                (NewPaxosProposals pm txn txn.fInc (MakeAbortBallots txn alloc)
                  (GetAcceptorsFromTxn txn) pm.rmId false).2 ++
                  [PMEvent.proposerStart txnId ProposerRole.activeLearner,
                   PMEvent.deliverOutcome txnId sender o]) := by
      simp only [TwoBTxnVotesReceived]
      rw [hnp, ha]
      simp [hact]
    refine ⟨_, _, heq, alookup_cons_self _ _ _, by simp, ?_⟩
    intro h0
    exact newPaxosProposals_inserts pm txn txn.fInc (MakeAbortBallots txn alloc)
      (GetAcceptorsFromTxn txn) pm.rmId false h0
  · intro hact c hoc
    subst hoc
    simp only [TwoBTxnVotesReceived]
    rw [hnp, ha]
    simp [hact]
  · intro hact hoc
    subst hoc
    simp only [TwoBTxnVotesReceived]
    rw [hnp, ha]
    simp [hact]

/-- Witness for C2: a commit 2B for unknown-but-active txn 20 installs
an ActiveLearner at RM 1 and delivers the outcome. -/
theorem claim_C2_witness :
    ∃ pm2 evs,
      TwoBTxnVotesReceived pmW 2 20 txnW2 (TwoBVotes.outcome (Outcome.commit 4))
          = some (pm2, evs) ∧
      alookup pm2.proposers 20 = some { role := ProposerRole.activeLearner } ∧
      alookup pm2.proposals (20, 1)
        = some (NewProposal 20 1 1 (MakeAbortBallots txnW2
            { rmId := 1, active := 7, actionIndices := [0] })
            (GetAcceptorsFromTxn txnW2) false) := by
  obtain ⟨pm2, evs, heq, hl, _, hprop⟩ :=
    (claim_C2 pmW 2 20 txnW2 (Outcome.commit 4)
      { rmId := 1, active := 7, actionIndices := [0] } (by decide) (by decide)).1
      (by decide)
  exact ⟨pm2, evs, heq, hl, hprop (by decide)⟩

/-- Claim C5: a rejected TxnReceived (no existing Proposer) builds one
AbortDeadlock ballot per action index of this RM's allocation, in
allocation order, each for the indexed action's variable id; starts a
new paxos proposal for (TxnId, own RM id) with skipPhase1 = true
carrying exactly those ballots; and installs and starts an
ActiveLearner Proposer for the TxnId. -/
theorem claim_C5 (pm : PM) (sender : Nat) (txn : TxnMsg) (alloc : Allocation)
    (hnp : alookup pm.proposers txn.id = none)
    (hrej : txnAccept pm sender txn = false)
    (ha : AllocForRMId txn pm.rmId = some alloc)
    (hnprop : alookup pm.proposals (txn.id, pm.rmId) = none) :
    ∃ pm2 evs, TxnReceived pm sender txn = some (pm2, evs) ∧
      alookup pm2.proposals (txn.id, pm.rmId)
        = some (NewProposal txn.id pm.rmId txn.fInc (MakeAbortBallots txn alloc)
            (GetAcceptorsFromTxn txn) true) ∧
      MakeAbortBallots txn alloc
        = alloc.actionIndices.map (fun i =>
            { varId := (txn.actions.getD i { varId := 0 }).varId
              vote := Vote.abortDeadlock }) ∧
      alookup pm2.proposers txn.id = some { role := ProposerRole.activeLearner } ∧
      PMEvent.proposerStart txn.id ProposerRole.activeLearner ∈ evs := by
  have heq : TxnReceived pm sender txn
      = some ({ (NewPaxosProposals pm txn txn.fInc (MakeAbortBallots txn alloc)
                  (GetAcceptorsFromTxn txn) pm.rmId true).1 with
                proposers := (txn.id, { role := ProposerRole.activeLearner }) ::
                  (NewPaxosProposals pm txn txn.fInc (MakeAbortBallots txn alloc)
                    (GetAcceptorsFromTxn txn) pm.rmId true).1.proposers },
              (NewPaxosProposals pm txn txn.fInc (MakeAbortBallots txn alloc)
                (GetAcceptorsFromTxn txn) pm.rmId true).2 ++
                [PMEvent.proposerStart txn.id ProposerRole.activeLearner]) := by
    unfold TxnReceived
    rw [hnp]
    simp [hrej, ha]
  refine ⟨_, _, heq, ?_, rfl, alookup_cons_self _ _ _, by simp⟩
  exact newPaxosProposals_inserts pm txn txn.fInc (MakeAbortBallots txn alloc)
    (GetAcceptorsFromTxn txn) pm.rmId true hnprop

/-- Witness for C5: the topology-rejected txn of `claim_C1_cex` gets an
all-AbortDeadlock skip-phase-1 proposal and an ActiveLearner. -/
theorem claim_C5_witness :
    ∃ pm2 evs, TxnReceived pmC1 2 txnC1 = some (pm2, evs) ∧
      alookup pm2.proposals (10, 1)
        = some (NewProposal 10 1 1 (MakeAbortBallots txnC1
            { rmId := 1, active := 7, actionIndices := [0] })
            (GetAcceptorsFromTxn txnC1) true) := by
  obtain ⟨pm2, evs, heq, hprop, _, _, _⟩ :=
    claim_C5 pmC1 2 txnC1 { rmId := 1, active := 7, actionIndices := [0] }
      (by decide) (by decide) (by decide) (by decide)
  exact ⟨pm2, evs, heq, hprop⟩

theorem ballotOutcome_silent (t : TxnSM) (o : Outcome)
    (h : t.outcomeClock.isSome = true ∨ t.aborted = true) :
    BallotOutcomeReceived t o = Except.ok (t, []) := by
  rcases h with h | h <;> simp [BallotOutcomeReceived, h]

theorem nextState_outcomeClock {t t1 : TxnSM} {evs : List TxnEvent}
    (h : nextState t = Except.ok (t1, evs)) : t1.outcomeClock = t.outcomeClock := by
  cases hs : t.currentState with
  | none => simp [nextState, hs] at h
  | some s =>
      cases s with
      | receiveOutcome =>
          simp only [nextState, hs] at h
          by_cases hcond : (t.aborted = true ∨ t.activeFramesCount = 0)
          · rw [if_pos hcond] at h
            simp at h
            obtain ⟨rfl, rfl⟩ := h
            rfl
          · rw [if_neg hcond] at h
            simp at h
            obtain ⟨rfl, rfl⟩ := h
            rfl
      | determineLocalBallots =>
          simp only [nextState, hs] at h
          simp at h
          obtain ⟨rfl, rfl⟩ := h
          rfl
      | awaitLocalBallots =>
          simp only [nextState, hs] at h
          simp at h
          obtain ⟨rfl, rfl⟩ := h
          rfl
      | awaitLocallyComplete =>
          simp only [nextState, hs] at h
          simp at h
          obtain ⟨rfl, rfl⟩ := h
          rfl
      | receiveCompletion =>
          simp only [nextState, hs] at h
          simp at h
          obtain ⟨rfl, rfl⟩ := h
          rfl

theorem ballotOutcome_commit_recorded {t t1 : TxnSM} {evs : List TxnEvent} {c : Nat}
    (h : BallotOutcomeReceived t (Outcome.commit c) = Except.ok (t1, evs)) :
    t1.outcomeClock.isSome = true ∨ t1.aborted = true := by
  by_cases hsil : t.outcomeClock.isSome = true ∨ t.aborted = true
  · rw [ballotOutcome_silent t _ hsil] at h
    simp at h
    obtain ⟨rfl, rfl⟩ := h
    exact hsil
  · unfold BallotOutcomeReceived at h
    rw [if_neg hsil] at h
    by_cases hs : t.currentState = some TxnState.receiveOutcome
    · rw [if_pos hs] at h
      simp only [] at h
      cases hn : nextState { t with outcomeClock := some c } with
      | error e =>
          rw [hn] at h
          simp at h
      | ok p =>
          obtain ⟨t2, evs2⟩ := p
          rw [hn] at h
          have hoc2 : t2.outcomeClock = some c := by
            simpa using nextState_outcomeClock hn
          simp only [] at h
          by_cases hpb : t2.preAbortedBool = true
          · rw [if_pos hpb] at h
            by_cases hab2 : t2.aborted = false
            · rw [if_pos hab2] at h
              simp at h
            · rw [if_neg hab2] at h
              simp at h
              obtain ⟨rfl, rfl⟩ := h
              exact Or.inl (by simp [hoc2])
          · rw [if_neg hpb] at h
            simp at h
            obtain ⟨rfl, rfl⟩ := h
            exact Or.inl (by simp [hoc2])
    · rw [if_neg hs] at h
      simp at h

theorem feedOutcome_silent (t : TxnSM) (c : Nat)
    (hrec : t.outcomeClock.isSome = true ∨ t.aborted = true) :
    ∀ n, feedOutcomeN n t (Outcome.commit c) = Except.ok (t, []) := by
  intro n
  induction n with
  | zero => rfl
  | succ m ih => simp [feedOutcomeN, ballotOutcome_silent t _ hrec, ih]

theorem feedOutcome_succ_eq (n : Nat) (t : TxnSM) (c : Nat) :
    feedOutcomeN (n + 1) t (Outcome.commit c) = feedOutcomeN 1 t (Outcome.commit c) := by
  cases hstep : BallotOutcomeReceived t (Outcome.commit c) with
  | error e => simp [feedOutcomeN, hstep]
  | ok p =>
      obtain ⟨t1, evs⟩ := p
      have hall := feedOutcome_silent t1 c (ballotOutcome_commit_recorded hstep)
      simp [feedOutcomeN, hstep, hall]

/-- Claim C3: once a Txn in ReceiveOutcome has recorded an outcome
(outcome clock set or aborted flag set), every later
BallotOutcomeReceived returns the state unchanged with no effects, and
feeding the same Commit outcome N times (N at least 1) has the same
effect as feeding it once. -/
theorem claim_C3 :
    (∀ t o, (t.outcomeClock.isSome = true ∨ t.aborted = true) →
      BallotOutcomeReceived t o = Except.ok (t, [])) ∧
    (∀ n t c, 1 ≤ n →
      feedOutcomeN n t (Outcome.commit c) = feedOutcomeN 1 t (Outcome.commit c)) := by
  refine ⟨ballotOutcome_silent, ?_⟩
  intro n t c hn
  obtain ⟨m, rfl⟩ : ∃ m, n = m + 1 := ⟨n - 1, by omega⟩
  exact feedOutcome_succ_eq m t c

/-- Witness for C3 at a txn with a recorded clock and at a fresh
learner fed the same commit three times. -/
theorem claim_C3_witness :
    BallotOutcomeReceived t3ex Outcome.abort = Except.ok (t3ex, []) ∧
    feedOutcomeN 3 t3feed (Outcome.commit 9) = feedOutcomeN 1 t3feed (Outcome.commit 9) :=
  ⟨claim_C3.1 t3ex Outcome.abort (by decide),
   claim_C3.2 3 t3feed 9 (by decide)⟩

/-- Claim C6 (amended): a preAborted Txn in ReceiveOutcome panics on a
Commit outcome; an abort outcome advances it *through*
AwaitLocallyComplete into ReceiveCompletion (firing the
TxnLocallyComplete upward callback on the way), without stamping any
outcome clock onto the local actions and without notifying any
variable. -/
theorem claim_C6 (t : TxnSM)
    (hs : t.currentState = some TxnState.receiveOutcome)
    (hp : t.preAbortedBool = true)
    (hoc : t.outcomeClock = none)
    (hab : t.aborted = false) :
    (∀ c, ∃ msg, BallotOutcomeReceived t (Outcome.commit c) = Except.error msg) ∧
    (BallotOutcomeReceived t Outcome.abort
        = Except.ok ({ t with
                       aborted := true
                       currentState := some TxnState.receiveCompletion },
                     [TxnEvent.stateAdvance TxnState.awaitLocallyComplete,
                      TxnEvent.stateAdvance TxnState.receiveCompletion,
                      TxnEvent.txnLocallyComplete]) ∧
      ({ t with
         aborted := true
         currentState := some TxnState.receiveCompletion } : TxnSM).localActions
          = t.localActions) := by
  have hcond : ¬(t.outcomeClock.isSome = true ∨ t.aborted = true) := by
    simp [hoc, hab]
  constructor
  · intro c
    unfold BallotOutcomeReceived
    rw [if_neg hcond, if_pos hs]
    simp only [nextState, hs, hab]
    by_cases hf : t.activeFramesCount = 0 <;> simp [hf, hp, hab]
  · constructor
    · unfold BallotOutcomeReceived
      rw [if_neg hcond, if_pos hs]
      simp [nextState, hs, hp]
    · rfl

/-- Witness for C6 at a one-action preAborted txn. -/
theorem claim_C6_witness :
    (∃ msg, BallotOutcomeReceived t6pre (Outcome.commit 3) = Except.error msg) ∧
    BallotOutcomeReceived t6pre Outcome.abort
      = Except.ok ({ t6pre with
                     aborted := true
                     currentState := some TxnState.receiveCompletion },
                   [TxnEvent.stateAdvance TxnState.awaitLocallyComplete,
                    TxnEvent.stateAdvance TxnState.receiveCompletion,
                    TxnEvent.txnLocallyComplete]) :=
  ⟨(claim_C6 t6pre rfl rfl rfl rfl).1 3,
   ((claim_C6 t6pre rfl rfl rfl rfl).2).1⟩

/-- Counterexample to C6 as stated: at a concrete preAborted txn the
abort outcome leaves the machine in ReceiveCompletion, not in
AwaitLocallyComplete as the claim says. -/
theorem claim_C6_cex :
    (BallotOutcomeReceived t6pre Outcome.abort).toOption.map (fun r => r.1.currentState)
        = some (some TxnState.receiveCompletion) ∧
    some TxnState.receiveCompletion ≠ some TxnState.awaitLocallyComplete := by
  refine ⟨rfl, by decide⟩

/-- Claim C9: an immigration over a non-empty varCaps list starts the
constructed Txn with voter = false, entering S3 (ReceiveOutcome)
directly (and being stepped straight on to AwaitLocallyComplete), with
each local action's outcome clock already set from the corresponding
varCap's write clock; S1/S2 are skipped and the construction emits no
ballot-related events. -/
theorem claim_C9 (txnId : Nat) (vcs : List VarCap) (hne : vcs ≠ []) :
    ∃ t evs, ImmigrationTxnFromCap txnId vcs = Except.ok (t, evs) ∧
      t.voter = false ∧
      (TxnStart (immigrationTxnInit txnId vcs) false).1.currentState
          = some TxnState.receiveOutcome ∧
      t.currentState = some TxnState.awaitLocallyComplete ∧
      t.localActions.map (fun a => a.outcomeClock)
          = vcs.map (fun vc => some vc.writeTxnClock) ∧
      (∀ e ∈ evs, (∀ bs, e ≠ TxnEvent.txnBallotsComplete bs) ∧
        e ≠ TxnEvent.enqueueAllTxnBallotsComplete ∧
        (∀ vid, e ≠ TxnEvent.receiveTxn vid)) := by
  have hne' : vcs.length ≠ 0 := fun h => hne (List.length_eq_zero.mp h)
  refine ⟨{ immigrationTxnInit txnId vcs with
            activeFramesCount := (vcs.length : Int)
            currentState := some TxnState.awaitLocallyComplete },
          TxnEvent.stateAdvance TxnState.awaitLocallyComplete ::
            vcs.map (fun vc => TxnEvent.receiveTxnOutcome vc.vcId),
          ?_, rfl, ?_, rfl, ?_, ?_⟩
  · simp [ImmigrationTxnFromCap, TxnStart, immigrationTxnInit, nextState,
      List.map_map, hne']
  · simp [TxnStart]
  · simp [immigrationTxnInit, List.map_map]
  · intro e he
    rcases List.mem_cons.mp he with rfl | hm
    · exact ⟨fun bs => by simp, by simp, fun vid => by simp⟩
    · obtain ⟨vc, _, rfl⟩ := List.mem_map.mp hm
      exact ⟨fun bs => by simp, by simp, fun vid => by simp⟩

/-- Witness for C9 at a two-varCap immigration. -/
theorem claim_C9_witness :
    ∃ t evs, ImmigrationTxnFromCap 77 vcsW = Except.ok (t, evs) ∧
      t.voter = false ∧
      t.localActions.map (fun a => a.outcomeClock) = [some 41, some 51] := by
  obtain ⟨t, evs, heq, hv, _, _, hclocks, _⟩ := claim_C9 77 vcsW (by decide)
  exact ⟨t, evs, heq, hv, by rw [hclocks]; rfl⟩

-- voteCast facts

theorem voteCast_pendingVote (t : TxnSM) (b : Ballot) (ab : Bool) :
    ((voteCast t b ab).1).pendingVote = t.pendingVote - 1 := by
  unfold voteCast
  by_cases h : (ab && !t.preAborted) = true <;> simp [h]

theorem voteCast_frame (t : TxnSM) (b : Ballot) (ab : Bool) :
    ((voteCast t b ab).1).localActions = t.localActions ∧
    ((voteCast t b ab).1).currentState = t.currentState := by
  unfold voteCast
  by_cases h : (ab && !t.preAborted) = true <;> simp [h]

theorem voteCast_enqueue_iff (t : TxnSM) (b : Ballot) (ab : Bool) :
    (TxnEvent.enqueueAllTxnBallotsComplete ∈ (voteCast t b ab).2.1)
      ↔ t.pendingVote - 1 = 0 := by
  unfold voteCast
  by_cases h : (ab && !t.preAborted) = true <;>
    by_cases h2 : t.pendingVote - 1 = 0 <;> simp [h, h2]

theorem voteCast_count (t : TxnSM) (b : Ballot) (ab : Bool) :
    ((voteCast t b ab).2.1).count TxnEvent.enqueueAllTxnBallotsComplete
      = if t.pendingVote - 1 = 0 then 1 else 0 := by
  unfold voteCast
  by_cases h : (ab && !t.preAborted) = true <;>
    by_cases h2 : t.pendingVote - 1 = 0 <;> simp [h, h2]

theorem castVotes_spec (votes : List (Ballot × Bool)) :
    ∀ (n : Nat) (t : TxnSM), t.pendingVote = (n : Int) → votes.length ≤ n →
      ((castVotes t votes).1.pendingVote = (n : Int) - votes.length ∧
       ((castVotes t votes).2).count TxnEvent.enqueueAllTxnBallotsComplete
         = (if votes.length = n ∧ 1 ≤ n then 1 else 0) ∧
       (castVotes t votes).1.localActions = t.localActions ∧
       (castVotes t votes).1.currentState = t.currentState) := by
  induction votes with
  | nil =>
      intro n t hpv hle
      have hcond : ¬(0 = n ∧ 1 ≤ n) := by omega
      simp [castVotes, hpv, hcond]
  | cons v rest ih =>
      intro n t hpv hle
      have hn1 : 1 ≤ n := by
        have hl := hle
        simp [List.length_cons] at hl
        omega
      have hpv1 : ((voteCast t v.1 v.2).1).pendingVote = ((n - 1 : Nat) : Int) := by
        rw [voteCast_pendingVote, hpv]
        omega
      have hrest : rest.length ≤ n - 1 := by
        have hl := hle
        simp [List.length_cons] at hl
        omega
      obtain ⟨ih1, ih2, ih3, ih4⟩ := ih (n - 1) (voteCast t v.1 v.2).1 hpv1 hrest
      simp only [castVotes]
      refine ⟨?_, ?_, ?_, ?_⟩
      · rw [ih1]
        simp only [List.length_cons]
        push_cast
        omega
      · rw [List.count_append, voteCast_count, hpv, ih2]
        simp only [List.length_cons]
        split_ifs <;> omega
      · rw [ih3, (voteCast_frame t v.1 v.2).1]
      · rw [ih4, (voteCast_frame t v.1 v.2).2]

/-- Claim C8 (amended): every voteCast decrements pendingVote by one and
enqueues allTxnBallotsComplete exactly when the count reaches zero (over
a sequence of k of n expected votes, exactly once, at the n-th);
allTxnBallotsComplete, invoked in AwaitLocalBallots, *advances the state
first* (to ReceiveOutcome) and then invokes the TxnBallotsComplete
callback with exactly one ballot slot per local action; hence a voter
emits exactly len(localActions) ballots at its transition out of
AwaitLocalBallots. -/
theorem claim_C8 :
    (∀ t b ab, ((voteCast t b ab).1).pendingVote = t.pendingVote - 1) ∧
    (∀ t b ab, (TxnEvent.enqueueAllTxnBallotsComplete ∈ (voteCast t b ab).2.1)
        ↔ t.pendingVote - 1 = 0) ∧
    (∀ t : TxnSM, t.currentState = some TxnState.awaitLocalBallots →
      allTxnBallotsComplete t = Except.ok
        ({ t with currentState := some TxnState.receiveOutcome },
         [TxnEvent.stateAdvance TxnState.receiveOutcome,
          TxnEvent.txnBallotsComplete (t.localActions.map (fun a => a.ballot))]) ∧
      (t.localActions.map (fun a => a.ballot)).length = t.localActions.length) ∧
    (∀ votes (n : Nat) (t : TxnSM), t.pendingVote = (n : Int) → votes.length ≤ n →
      ((castVotes t votes).1.pendingVote = (n : Int) - votes.length ∧
       ((castVotes t votes).2).count TxnEvent.enqueueAllTxnBallotsComplete
         = (if votes.length = n ∧ 1 ≤ n then 1 else 0))) := by
  refine ⟨voteCast_pendingVote, voteCast_enqueue_iff, ?_, ?_⟩
  · intro t hs
    refine ⟨?_, by simp⟩
    simp [allTxnBallotsComplete, nextState, hs]
  · intro votes n t hpv hle
    obtain ⟨h1, h2, _, _⟩ := castVotes_spec votes n t hpv hle
    exact ⟨h1, h2⟩

/-- Witness for C8: one vote on a one-action voter txn triggers exactly
one allTxnBallotsComplete enqueue. -/
theorem claim_C8_witness :
    ((castVotes t8awaiting [({ varId := 21, vote := Vote.commit }, false)]).2).count
        TxnEvent.enqueueAllTxnBallotsComplete = 1 := by
  have h := (claim_C8.2.2.2 [({ varId := 21, vote := Vote.commit }, false)] 1
    t8awaiting (by decide) (by decide)).2
  simpa using h

/-- Counterexample to C8 as stated: at a concrete one-action voter txn
in AwaitLocalBallots, allTxnBallotsComplete advances the state *before*
invoking the TxnBallotsComplete callback, so the trace is
[stateAdvance, txnBallotsComplete], not [txnBallotsComplete,
stateAdvance] as the claim's ordering ("invokes the callback ... and
then advances the state") predicts. -/
theorem claim_C8_cex :
    (allTxnBallotsComplete t8awaiting).toOption
        = some ({ t8awaiting with currentState := some TxnState.receiveOutcome },
                [TxnEvent.stateAdvance TxnState.receiveOutcome,
                 TxnEvent.txnBallotsComplete
                   [some { varId := 21, vote := Vote.commit }]]) ∧
    (allTxnBallotsComplete t8awaiting).toOption
        ≠ some ({ t8awaiting with currentState := some TxnState.receiveOutcome },
                [TxnEvent.txnBallotsComplete
                   [some { varId := 21, vote := Vote.commit }],
                 TxnEvent.stateAdvance TxnState.receiveOutcome]) := by
  refine ⟨rfl, by decide⟩

end GoshawkPaxos
